import Mathlib

/-!
# Verification of the `log` package (gelfand/log)

A shallow embedding of `log18.go`: the level model (`logLvl`, its tag, colour
and reset code), the record formatter (`doLog`, `logf`, `getTime`) and the
`Log` methods writing to an `io.Writer`, followed by theorems about them.

Modelling conventions

* Go strings are Lean `String`s.
* `time.Now()` is a read of an explicit clock: a stream of readings, consumed
  one reading per call, in program order.
* An `io.Writer` is a `Sink`: the text it has accepted, the arguments of the
  `Write` calls it has received, and for every call whether (and after how many
  characters) it fails.
* `os.Exit` is an `Outcome` that does not hand control back to the caller.
* `fmt.Sprint`, `fmt.Sprintf` and `fmt.Fprint` belong to the Go standard
  library; they are modelled for the operand types and verbs listed at their
  definitions.
-/

namespace GoLog

/-- The Go type `string`. -/
abbrev GoString : Type := String

/-! ## Colour codes (log18.go, lines 12-25) -/

/-- The reset colour code. -/
def reset : String := "\x1b[0m"
/-- The red colour code. -/
def red : String := "\x1b[31m"
/-- The bold red colour code. -/
def boldRed : String := "\x1b[1;31m"
/-- The green colour code. -/
def green : String := "\x1b[32m"
/-- The orange colour code. -/
def orange : String := "\x1b[33m"
/-- The cyan colour code. -/
def cyan : String := "\x1b[36m"

/-! ## Levels (log18.go, lines 27-77) -/

/-- The Go type `logLvl` is an `int8`; the value is kept as an integer so that
values outside the five constants exist, as they do in the source. -/
structure logLvl where
  val : Int
  deriving DecidableEq, Repr

def lvlDebug : logLvl := ⟨0⟩
def lvlInfo : logLvl := ⟨1⟩
def lvlWarn : logLvl := ⟨2⟩
def lvlError : logLvl := ⟨3⟩
def lvlFatal : logLvl := ⟨4⟩

/-- The five declared severities, in declaration order. -/
def severities : List logLvl := [lvlDebug, lvlInfo, lvlWarn, lvlError, lvlFatal]

/-- The method `logLvl.String`: the switch over the level constants. -/
def logLvl.String (lvl : logLvl) : GoString :=
  if lvl = lvlDebug then "DBUG"
  else if lvl = lvlInfo then "INFO"
  else if lvl = lvlWarn then "WARN"
  else if lvl = lvlError then "EROR"
  else if lvl = lvlFatal then "FATL"
  else ""

/-- The method `logLvl.color`. -/
def logLvl.color (lvl : logLvl) : GoString :=
  if lvl = lvlDebug then cyan
  else if lvl = lvlInfo then green
  else if lvl = lvlWarn then orange
  else if lvl = lvlError then red
  else if lvl = lvlFatal then boldRed
  else ""

/-- The method `logLvl.reset`: the same code for every level. -/
def logLvl.reset (_lvl : logLvl) : GoString := GoLog.reset

/-! ## The formatting primitives of the standard library -/

/-- An operand of Go type `any`, for the dynamic types the model covers. -/
inductive GoAny where
  | str (s : String)
  | int (i : Int)
  | bool (b : Bool)
  deriving DecidableEq, Repr

/-- Decimal rendering of an integer, with a leading minus sign when negative. -/
def itoa (i : Int) : List Char :=
  (if i < 0 then ['-'] else []) ++ Nat.toDigits 10 i.natAbs

/-- The name Go prints for the dynamic type of an operand. -/
def GoAny.typeName : GoAny → String
  | .str _ => "string"
  | .int _ => "int"
  | .bool _ => "bool"

/-- The function `fmt.Sprint` on one operand: its default format. A string
operand is rendered as itself. -/
def Sprint : GoAny → String
  | .str s => s
  | .int i => String.mk (itoa i)
  | .bool b => if b then "true" else "false"

/-- The verb `%d` with an optional width and the zero flag (`fmtInteger` of the
standard library at base 10): padding to the width on the left, with zeros
after the sign when the zero flag is set and with spaces otherwise. -/
def fmtInteger (zero : Bool) (width : Nat) (i : Int) : List Char :=
  let sign : List Char := if i < 0 then ['-'] else []
  let ds := Nat.toDigits 10 i.natAbs
  if zero then sign ++ List.replicate (width - sign.length - ds.length) '0' ++ ds
  else List.replicate (width - (sign.length + ds.length)) ' ' ++ sign ++ ds

/-- The token the library prints for a verb that does not fit its operand:
`%!verb(type=value)`, with the operand in its default format (a width or flag
given with the verb is not applied to it in the model). -/
def badVerb (verb : Char) (a : GoAny) : List Char :=
  "%!".toList ++ [verb] ++ "(".toList ++ a.typeName.toList ++ "=".toList
    ++ (Sprint a).toList ++ ")".toList

/-- One verb applied to one operand. The model covers the verbs `v`, `d`, `s`
and `t`, and a width on `d` only; any other verb is answered with the token for
a verb that does not fit, which is what the library does for verbs it does not
know but not for its further verbs such as `x` or `q`. -/
def fmtVerb (verb : Char) (zero : Bool) (width : Option Nat) (a : GoAny) : List Char :=
  if verb = 'v' then (Sprint a).toList          -- %v
  else if verb = 'd' then                       -- %d
    match a with
    | .int i => fmtInteger zero (width.getD 0) i
    | _ => badVerb verb a
  else if verb = 's' then                       -- %s
    match a with
    | .str s => s.toList
    | _ => badVerb verb a
  else if verb = 't' then                       -- %t
    match a with
    | .bool b => (Sprint (.bool b)).toList
    | _ => badVerb verb a
  else badVerb verb a

/-- The list of operands left over at the end of the template, as the library
reports it: `%!(EXTRA type=value, type=value)`. -/
def extraArgs : List GoAny → List Char
  | [] => []
  | a :: as =>
    "%!(EXTRA ".toList ++ a.typeName.toList ++ "=".toList ++ (Sprint a).toList
      ++ (as.flatMap fun b => ", ".toList ++ b.typeName.toList ++ "=".toList ++ (Sprint b).toList)
      ++ ")".toList

/-- The scanner of `fmt.Sprintf`. `verb = none`: copying literal text;
`verb = some (zero, width)`: after a percent sign, reading the zero flag and
the width of a verb. The flags `-`, `+`, `#` and blank, a precision, an
explicit operand index and the cap the library puts on the width are not modelled. -/
def sprintfLoop : List Char → Option (Bool × Option Nat) → List GoAny → List Char
  | [], none, args => extraArgs args
  | [], some _, args => "%!(NOVERB)".toList ++ extraArgs args
  | c :: cs, none, args =>
    if c = '%' then sprintfLoop cs (some (false, none)) args
    else c :: sprintfLoop cs none args
  | c :: cs, some (zero, width), args =>
    if c = '0' ∧ width = none then sprintfLoop cs (some (true, none)) args
    else if c.isDigit then
      sprintfLoop cs (some (zero, some (10 * width.getD 0 + (c.toNat - '0'.toNat)))) args
    else if c = '%' then c :: sprintfLoop cs none args
    else
      match args with
      | [] => "%!".toList ++ [c] ++ "(MISSING)".toList ++ sprintfLoop cs none []
      | a :: as => fmtVerb c zero width a ++ sprintfLoop cs none as

/-- The function `fmt.Sprintf` for the verbs `%v`, `%d`, `%s`, `%t` and `%%`,
with the zero flag and a width on `%d`, and with the library's tokens for a
missing operand, a surplus operand, a verb that does not fit its operand and a
template ending in a percent sign. Other flags, precision and explicit operand
indexes are outside the model. -/
def Sprintf (format : String) (a : List GoAny) : String :=
  String.mk (sprintfLoop format.toList none a)

/-! ## The clock -/

/-- One reading of the wall clock, with the fields `getTime` asks for. The
accessors of `time.Time` return the hour in 0..23, the minute and the second in
0..59 and the nanosecond in 0..999999999; `Time.valid` states those ranges. -/
structure Time where
  Hour : Nat
  Minute : Nat
  Second : Nat
  Nanosecond : Nat
  deriving DecidableEq, Repr

/-- The ranges the accessors of a reading stay in. -/
def Time.valid (t : Time) : Prop :=
  t.Hour < 24 ∧ t.Minute < 60 ∧ t.Second < 60 ∧ t.Nanosecond < 1000000000

instance (t : Time) : Decidable t.valid := by
  unfold Time.valid; infer_instance

/-- The clock: the readings successive calls of `time.Now()` return. -/
abbrev Clock : Type := Nat → Time

/-- The call `time.Now()`: the next reading, and the clock after it. -/
def Now (clk : Clock) : Time × Clock := (clk 0, fun n => clk (n + 1))

/-- The clock that returns the listed readings in order and then keeps
returning the last reading given. -/
def Clock.ofList (first : Time) : List Time → Clock
  | [], _ => first
  | t :: _, 0 => t
  | t :: ts, n + 1 => Clock.ofList t ts n

/-- The clock that stands still at one reading. -/
def Clock.const (t : Time) : Clock := fun _ => t

/-! ## The formatter (log18.go, lines 220-262) -/

/-- The function `getTime`: it reads the clock three times: once into
`currentTime`, used for the hour, the day part and the nanosecond, then once
for the minute and once for the second. -/
def getTime (clk : Clock) : String × Clock :=
  let (currentTime, clk1) := Now clk
  let hour := currentTime.Hour
  let (hourString, dayPart) :=
    if hour ≥ 12 then (Sprintf "%02d" [.int ((hour - 12 : Nat) : Int)], "PM")
    else (Sprintf "%02d" [.int (hour : Int)], "AM")
  let (now2, clk2) := Now clk1
  let minute := Sprintf "%02d" [.int (now2.Minute : Int)]
  let (now3, clk3) := Now clk2
  let second := Sprintf "%02d" [.int (now3.Second : Int)]
  let nanosecondString := Sprintf "%09d" [.int (currentTime.Nanosecond : Int)]
  let logTime := hourString ++ ":" ++ minute ++ ":" ++ second ++ "." ++ nanosecondString
    ++ " " ++ dayPart
  (logTime, clk3)

/-- The function `doLog`: colour, tag, reset, bracketed time, message,
newline. -/
def doLog (lvl : logLvl) (arg : GoAny) (clk : Clock) : String × Clock :=
  let record := lvl.color ++ lvl.String ++ lvl.reset
  let (t, clk1) := getTime clk
  let record := record ++ ("[" ++ t ++ "] ")
  let record := record ++ Sprint arg
  let record := record ++ "\n"
  (record, clk1)

/-- The function `logf`. -/
def logf (lvl : logLvl) (format : String) (a : List GoAny) (clk : Clock) : String × Clock :=
  doLog lvl (.str (Sprintf format a)) clk

/-! ## The sink and the logger (log18.go, lines 103-168, 264-267) -/

/-- An `io.Writer`. `content` is the text accepted so far, `received` the
arguments of the `Write` calls made so far, oldest first, and `limit k` says
what the call number `k` does: `none` accepts the whole argument, `some n`
accepts at most `n` characters of it and reports an error. -/
structure Sink where
  content : String
  received : List String
  limit : Nat → Option Nat

/-- The number of `Write` calls the sink has received. -/
def Sink.calls (w : Sink) : Nat := w.received.length

/-- A sink that accepts every write, such as a `bytes.Buffer`. -/
def Sink.buffer (content : String) : Sink := ⟨content, [], fun _ => none⟩

/-- A sink that rejects every write. -/
def Sink.broken : Sink := ⟨"", [], fun _ => some 0⟩

/-- The method `Write` of the sink: the sink after the call, the number of
characters accepted and the error, if any. -/
def Sink.Write (w : Sink) (p : String) : Sink × Nat × Option String :=
  match w.limit w.calls with
  | none => (⟨w.content ++ p, w.received ++ [p], w.limit⟩, p.length, none)
  | some n =>
    (⟨w.content ++ String.mk (p.toList.take n), w.received ++ [p], w.limit⟩,
      min n p.length, some "write error")

/-- The function `fmt.Fprint` on one operand: one `Write` of the operand in its
default format, returning what `Write` returned. -/
def Fprint (w : Sink) (a : GoAny) : Sink × Nat × Option String :=
  w.Write (Sprint a)

/-- The struct `Log`: the writer the records go to. -/
structure Log where
  w : Sink

/-- The function `New`. -/
def New (w : Sink) : Log := ⟨w⟩

/-- How a call of a method ends: it hands control back to the caller, or the
process has terminated with an exit status. Either way the state reached (the
logger with its sink, and the clock) is recorded. No constructor carries an
error: the methods have no result. -/
inductive Outcome where
  | returned (l : Log) (clk : Clock)
  | exited (status : Int) (l : Log) (clk : Clock)

/-- The function `die`: `os.Exit(1)`. -/
def die (l : Log) (clk : Clock) : Outcome := .exited 1 l clk

/-- The statement `fmt.Fprint(l.w, record)` of the methods: the results of
`Fprint` are dropped. -/
def Log.emit (l : Log) (out : String × Clock) : Log × Clock :=
  (⟨(Fprint l.w (.str out.1)).1⟩, out.2)

/-- The method `Debug`. -/
def Log.Debug (l : Log) (arg : GoAny) (clk : Clock) : Outcome :=
  let (l1, clk1) := l.emit (doLog lvlDebug arg clk)
  .returned l1 clk1

/-- The method `Debugf`. -/
def Log.Debugf (l : Log) (format : String) (args : List GoAny) (clk : Clock) : Outcome :=
  let (l1, clk1) := l.emit (logf lvlDebug format args clk)
  .returned l1 clk1

/-- The method `Info`. -/
def Log.Info (l : Log) (arg : GoAny) (clk : Clock) : Outcome :=
  let (l1, clk1) := l.emit (doLog lvlInfo arg clk)
  .returned l1 clk1

/-- The method `Infof`. -/
def Log.Infof (l : Log) (format : String) (args : List GoAny) (clk : Clock) : Outcome :=
  let (l1, clk1) := l.emit (logf lvlInfo format args clk)
  .returned l1 clk1

/-- The method `Warn`. -/
def Log.Warn (l : Log) (arg : GoAny) (clk : Clock) : Outcome :=
  let (l1, clk1) := l.emit (doLog lvlWarn arg clk)
  .returned l1 clk1

/-- The method `Warnf`. -/
def Log.Warnf (l : Log) (format : String) (args : List GoAny) (clk : Clock) : Outcome :=
  let (l1, clk1) := l.emit (logf lvlWarn format args clk)
  .returned l1 clk1

/-- The method `Error`. -/
def Log.Error (l : Log) (arg : GoAny) (clk : Clock) : Outcome :=
  let (l1, clk1) := l.emit (doLog lvlError arg clk)
  .returned l1 clk1

/-- The method `Errorf`. -/
def Log.Errorf (l : Log) (format : String) (args : List GoAny) (clk : Clock) : Outcome :=
  let (l1, clk1) := l.emit (logf lvlError format args clk)
  .returned l1 clk1

/-- The method `Fatal`: the write, then `die`. -/
def Log.Fatal (l : Log) (arg : GoAny) (clk : Clock) : Outcome :=
  let (l1, clk1) := l.emit (doLog lvlFatal arg clk)
  die l1 clk1

/-- The method `Fatalf`: the write, then `die`. -/
def Log.Fatalf (l : Log) (format : String) (args : List GoAny) (clk : Clock) : Outcome :=
  let (l1, clk1) := l.emit (logf lvlFatal format args clk)
  die l1 clk1

/-- The logger a call leaves behind. -/
def Outcome.log : Outcome → Log
  | .returned l _ => l
  | .exited _ l _ => l

/-- The clock a call leaves behind. -/
def Outcome.clock : Outcome → Clock
  | .returned _ clk => clk
  | .exited _ _ clk => clk

/-- The exit status of the process, when the call terminated it. -/
def Outcome.status : Outcome → Option Int
  | .returned _ _ => none
  | .exited status _ _ => some status

/-! ## Reading records back -/

/-- The text with the first occurrence of `p` deleted (the text itself when `p`
does not occur). -/
def removeFirst (p : List Char) : List Char → List Char
  | [] => []
  | c :: cs => if p.isPrefixOf (c :: cs) then (c :: cs).drop p.length else c :: removeFirst p cs

/-- The zero-padded decimal numeral of exactly `w` digits for `n`: its `w`
lowest decimal digits, most significant first. -/
def fixedDigits : Nat → Nat → List Char
  | 0, _ => []
  | w + 1, n => fixedDigits w (n / 10) ++ [Nat.digitChar (n % 10)]

/-- Consume exactly `k` decimal digits, then go on with `rest`. -/
def digitsThen : Nat → (List Char → Bool) → List Char → Bool
  | 0, rest, cs => rest cs
  | _ + 1, _, [] => false
  | k + 1, rest, c :: cs => c.isDigit && digitsThen k rest cs

/-- Consume the character `c`, then go on with `rest`. -/
def charThen (c : Char) (rest : List Char → Bool) : List Char → Bool
  | [] => false
  | d :: cs => d == c && rest cs

/-- The whole text is `AM` or `PM`. -/
def isDayPart (cs : List Char) : Bool := cs == ['A', 'M'] || cs == ['P', 'M']

/-- The whole text matches `\d{2}:\d{2}:\d{2}\.\d{9} (AM|PM)`. -/
def matchesTimestamp (cs : List Char) : Bool :=
  digitsThen 2 (charThen ':' (digitsThen 2 (charThen ':' (digitsThen 2 (charThen '.'
    (digitsThen 9 (charThen ' ' isDayPart))))))) cs

/-- Zero padding of the decimal numeral of `n` to at least `w` characters: what
the verb `%0wd` prints for a non-negative operand. -/
def zeroPad (w n : Nat) : List Char :=
  List.replicate (w - (Nat.toDigits 10 n).length) '0' ++ Nat.toDigits 10 n

/-- The record with the colour escape code, the reset escape code and the
bracketed timestamp stripped, in the words of the round-trip property: each of
the three is deleted where it first occurs. -/
def stripRecord (color reset timestamp record : String) : String :=
  String.mk (removeFirst (('[' :: timestamp.toList) ++ [']'])
    (removeFirst reset.toList (removeFirst color.toList record.toList)))

/-- The 12-hour wall-clock hour of the 24-hour hour `h`, in the words of the
timestamp property: 12 at midnight and at noon, otherwise 1..11. -/
def clockHour12 (h : Nat) : Nat := (h + 11) % 12 + 1

/-- The timestamp of one reading: what `getTime` returns when every call of
`time.Now()` in it sees the reading `t`. -/
def timestampOf (t : Time) : String := (getTime (Clock.const t)).1

/-- A character a timestamp can start with: a decimal digit or a colon. -/
def stampChar (c : Char) : Bool := c.isDigit || c == ':'

/-- Among the first three characters of the text (or all of them, when there
are fewer) one is neither a digit nor a colon. -/
def breaksStamp (cs : List Char) : Bool := (cs.take 3).any fun c => !stampChar c

/-- No timestamp can start inside the text, whatever follows it. -/
def noStampStart : List Char → Bool
  | [] => true
  | c :: cs => breaksStamp (c :: cs) && noStampStart cs

/-- The four levels that hand control back, each with its plain method. -/
def plainMethods : List (logLvl × (Log → GoAny → Clock → Outcome)) :=
  [(lvlDebug, Log.Debug), (lvlInfo, Log.Info), (lvlWarn, Log.Warn), (lvlError, Log.Error)]

/-- A reading just before 11:00. -/
def beforeEleven : Time := ⟨10, 59, 59, 999999999⟩

/-- A reading just after 11:00. -/
def afterEleven : Time := ⟨11, 0, 0, 5⟩

/-- A clock that passes 11:00 between its first and its second
reading. -/
def passingEleven : Clock := Clock.ofList beforeEleven [beforeEleven, afterEleven, afterEleven]

/-- The clock standing at midnight. -/
def midnight : Clock := Clock.const ⟨0, 0, 0, 0⟩

/-! ## Decimal numerals -/

theorem toDigitsCore_eq (n : Nat) : ∀ (fuel : Nat) (acc : List Char), n < fuel →
    Nat.toDigitsCore 10 fuel n acc = Nat.toDigits 10 n ++ acc := by
  induction n using Nat.strong_induction_on with
  | _ n ih =>
    intro fuel acc hf
    obtain ⟨k, rfl⟩ : ∃ k, fuel = k + 1 := ⟨fuel - 1, by omega⟩
    unfold Nat.toDigits
    simp only [Nat.toDigitsCore]
    by_cases h : n / 10 = 0
    · simp [h]
    · have hlt : n / 10 < n := Nat.div_lt_self (by omega) (by omega)
      simp only [h, if_false]
      rw [ih (n / 10) hlt k _ (by omega), ih (n / 10) hlt n _ hlt]
      simp

theorem toDigits_small (n : Nat) (h : n < 10) : Nat.toDigits 10 n = [Nat.digitChar n] := by
  unfold Nat.toDigits
  simp only [Nat.toDigitsCore]
  have h0 : n / 10 = 0 := by omega
  have h1 : n % 10 = n := by omega
  simp [h0, h1]

theorem toDigits_step (n : Nat) (h : 10 ≤ n) :
    Nat.toDigits 10 n = Nat.toDigits 10 (n / 10) ++ [Nat.digitChar (n % 10)] := by
  have hlt : n / 10 < n := Nat.div_lt_self (by omega) (by omega)
  have h0 : ¬ n / 10 = 0 := by omega
  conv_lhs => unfold Nat.toDigits
  simp only [Nat.toDigitsCore, h0, if_false]
  exact toDigitsCore_eq (n / 10) n _ hlt

theorem fixedDigits_zero (w : Nat) : fixedDigits w 0 = List.replicate w '0' := by
  induction w with
  | zero => rfl
  | succ w ih =>
    simp only [fixedDigits, Nat.zero_div, ih, Nat.zero_mod]
    rw [List.replicate_succ']
    rfl

theorem fixedDigits_length (w n : Nat) : (fixedDigits w n).length = w := by
  induction w generalizing n with
  | zero => rfl
  | succ w ih => simp [fixedDigits, ih]

theorem toDigits_length_le (w : Nat) : ∀ n, 1 ≤ w → n < 10 ^ w → (Nat.toDigits 10 n).length ≤ w := by
  induction w with
  | zero => intro n h; omega
  | succ w ih =>
    intro n _ hn
    by_cases h : n < 10
    · simp [toDigits_small n h]
    · have hw : 1 ≤ w := by
        rcases w with _ | w
        · simp at hn; omega
        · omega
      rw [toDigits_step n (by omega)]
      have := ih (n / 10) hw (by rw [pow_succ] at hn; omega)
      simp; omega

theorem zeroPad_eq_fixedDigits (w : Nat) : ∀ n, 1 ≤ w → n < 10 ^ w →
    List.replicate (w - (Nat.toDigits 10 n).length) '0' ++ Nat.toDigits 10 n = fixedDigits w n := by
  induction w with
  | zero => intro n h; omega
  | succ w ih =>
    intro n _ hn
    by_cases h : n < 10
    · have h0 : n / 10 = 0 := by omega
      have h1 : n % 10 = n := by omega
      simp [toDigits_small n h, fixedDigits, h0, h1, fixedDigits_zero]
    · have hw : 1 ≤ w := by
        rcases w with _ | w
        · simp at hn; omega
        · omega
      have hn10 : n / 10 < 10 ^ w := by rw [pow_succ] at hn; omega
      rw [toDigits_step n (by omega)]
      simp only [fixedDigits, List.length_append, List.length_singleton, Nat.add_sub_add_right]
      rw [← ih (n / 10) hw hn10, List.append_assoc]

theorem digitChar_isDigit (k : Nat) (h : k < 10) : (Nat.digitChar k).isDigit = true := by
  have : k = 0 ∨ k = 1 ∨ k = 2 ∨ k = 3 ∨ k = 4 ∨ k = 5 ∨ k = 6 ∨ k = 7 ∨ k = 8 ∨ k = 9 := by
    omega
  rcases this with rfl | rfl | rfl | rfl | rfl | rfl | rfl | rfl | rfl | rfl <;> decide

theorem digitChar_mod_isDigit (n : Nat) : (Nat.digitChar (n % 10)).isDigit = true :=
  digitChar_isDigit _ (Nat.mod_lt _ (by decide))

theorem toDigits_all_isDigit (n : Nat) : ∀ c ∈ Nat.toDigits 10 n, c.isDigit = true := by
  induction n using Nat.strong_induction_on with
  | _ n ih =>
    intro c hc
    by_cases h : n < 10
    · rw [toDigits_small n h] at hc
      simp only [List.mem_singleton] at hc
      rw [hc]
      exact digitChar_isDigit n h
    · rw [toDigits_step n (by omega)] at hc
      rcases List.mem_append.mp hc with hc | hc
      · exact ih (n / 10) (Nat.div_lt_self (by omega) (by omega)) c hc
      · simp only [List.mem_singleton] at hc
        rw [hc]
        exact digitChar_mod_isDigit n

theorem zeroPad_all_isDigit (w n : Nat) : ∀ c ∈ zeroPad w n, c.isDigit = true := by
  intro c hc
  rcases List.mem_append.mp hc with hc | hc
  · rw [(List.mem_replicate.mp hc).2]
    decide
  · exact toDigits_all_isDigit n c hc

theorem zeroPad_length_ge (w n : Nat) : w ≤ (zeroPad w n).length := by
  simp only [zeroPad, List.length_append, List.length_replicate]
  omega

theorem zeroPad_eq (w n : Nat) (hw : 1 ≤ w) (hn : n < 10 ^ w) : zeroPad w n = fixedDigits w n :=
  zeroPad_eq_fixedDigits w n hw hn

/-! ## The timestamp in closed form -/

theorem fmtInteger_zero_natCast (w n : Nat) : fmtInteger true w (n : Int) = zeroPad w n := by
  have hn : ¬ ((n : Int) < 0) := by omega
  simp [fmtInteger, zeroPad, hn]

theorem Sprintf_02d (n : Nat) : Sprintf "%02d" [.int (n : Int)] = String.mk (zeroPad 2 n) := by
  simp [Sprintf, sprintfLoop, fmtVerb, extraArgs, fmtInteger_zero_natCast]

theorem Sprintf_09d (n : Nat) : Sprintf "%09d" [.int (n : Int)] = String.mk (zeroPad 9 n) := by
  simp [Sprintf, sprintfLoop, fmtVerb, extraArgs, fmtInteger_zero_natCast]

theorem getTime_fst (clk : Clock) :
    (getTime clk).1 = String.mk
      (zeroPad 2 (if 12 ≤ (clk 0).Hour then (clk 0).Hour - 12 else (clk 0).Hour) ++ ':' ::
        zeroPad 2 (clk 1).Minute ++ ':' :: zeroPad 2 (clk 2).Second ++ '.' ::
        zeroPad 9 (clk 0).Nanosecond ++ ' ' ::
        (if 12 ≤ (clk 0).Hour then ['P', 'M'] else ['A', 'M'])) := by
  simp only [getTime, Now, Sprintf_02d, Sprintf_09d]
  apply String.ext
  by_cases h : 12 ≤ (clk 0).Hour <;> simp [h]

theorem getTime_snd (clk : Clock) : (getTime clk).2 = fun n => clk (n + 3) := by
  rfl

theorem hour12_eq_mod (h : Nat) (hh : h < 24) : (if 12 ≤ h then h - 12 else h) = h % 12 := by
  split <;> omega

theorem getTime_valid (clk : Clock) (h : ∀ n, (clk n).valid) :
    (getTime clk).1 = String.mk
      (fixedDigits 2 ((clk 0).Hour % 12) ++ ':' ::
        fixedDigits 2 (clk 1).Minute ++ ':' :: fixedDigits 2 (clk 2).Second ++ '.' ::
        fixedDigits 9 (clk 0).Nanosecond ++ ' ' ::
        (if 12 ≤ (clk 0).Hour then ['P', 'M'] else ['A', 'M'])) := by
  obtain ⟨h0, -, -, h3⟩ := h 0
  obtain ⟨-, h1, -, -⟩ := h 1
  obtain ⟨-, -, h2, -⟩ := h 2
  rw [getTime_fst, hour12_eq_mod _ h0,
    zeroPad_eq 2 ((clk 0).Hour % 12) (by decide) (by norm_num; omega),
    zeroPad_eq 2 (clk 1).Minute (by decide) (by norm_num; omega),
    zeroPad_eq 2 (clk 2).Second (by decide) (by norm_num; omega),
    zeroPad_eq 9 (clk 0).Nanosecond (by decide) (by norm_num; omega)]

/-! ## The level model -/

/-- C5: for each of the five severities the colourised tag is
`ESC[<code>m<TAG>ESC[0m` with code and tag (36, DBUG) for Debug, (32, INFO) for
Info, (33, WARN) for Warn, (31, EROR) for Error and (1;31, FATL) for Fatal;
every tag is four characters long, and the reset sequence is `ESC[0m` for every
level. -/
theorem level_prefix_table :
    lvlDebug.color ++ lvlDebug.String ++ lvlDebug.reset = "\x1b[36mDBUG\x1b[0m" ∧
    lvlInfo.color ++ lvlInfo.String ++ lvlInfo.reset = "\x1b[32mINFO\x1b[0m" ∧
    lvlWarn.color ++ lvlWarn.String ++ lvlWarn.reset = "\x1b[33mWARN\x1b[0m" ∧
    lvlError.color ++ lvlError.String ++ lvlError.reset = "\x1b[31mEROR\x1b[0m" ∧
    lvlFatal.color ++ lvlFatal.String ++ lvlFatal.reset = "\x1b[1;31mFATL\x1b[0m" ∧
    (lvlDebug.color = "\x1b[36m" ∧ lvlInfo.color = "\x1b[32m" ∧ lvlWarn.color = "\x1b[33m" ∧
      lvlError.color = "\x1b[31m" ∧ lvlFatal.color = "\x1b[1;31m") ∧
    (lvlDebug.String = "DBUG" ∧ lvlInfo.String = "INFO" ∧ lvlWarn.String = "WARN" ∧
      lvlError.String = "EROR" ∧ lvlFatal.String = "FATL") ∧
    (∀ lvl ∈ severities, lvl.String.length = 4) ∧
    (∀ lvl : logLvl, lvl.reset = "\x1b[0m") := by
  refine ⟨by decide, by decide, by decide, by decide, by decide, by decide, by decide, ?_, ?_⟩
  · decide
  · intro lvl
    rfl

/-! ## The record -/

/-- C1: for every level, message text and clock, the record `doLog` builds is
colour, tag, reset, `[`, the timestamp `getTime` produces on that clock, `] `,
the message and a newline, and the clock is left where `getTime` left it; so
the record ends with a newline and contains the tag of the level. -/
theorem doLog_layout (lvl : logLvl) (M : String) (clk : Clock) :
    (doLog lvl (.str M) clk).1 =
      lvl.color ++ lvl.String ++ lvl.reset ++ "[" ++ (getTime clk).1 ++ "] " ++ M ++ "\n" ∧
    (doLog lvl (.str M) clk).2 = (getTime clk).2 ∧
    "\n".toList <:+ (doLog lvl (.str M) clk).1.toList ∧
    lvl.String.toList <:+: (doLog lvl (.str M) clk).1.toList := by
  have hrec : (doLog lvl (.str M) clk).1 =
      lvl.color ++ lvl.String ++ lvl.reset ++ "[" ++ (getTime clk).1 ++ "] " ++ M ++ "\n" := by
    simp only [doLog, Sprint, String.append_assoc]
  refine ⟨hrec, rfl, ?_, ?_⟩
  · rw [hrec]
    exact ⟨_, (String.data_append _ _).symm⟩
  · rw [hrec]
    refine ⟨lvl.color.toList,
      (lvl.reset ++ "[" ++ (getTime clk).1 ++ "] " ++ M ++ "\n").toList, ?_⟩
    simp only [String.toList, String.data_append, List.append_assoc]

/-! ## The timestamp -/

/-- C4: when the readings of the clock are in range (hour 0..23, minute and
second 0..59, nanosecond 0..999999999), the string `getTime` returns has exactly
21 characters and matches `\d{2}:\d{2}:\d{2}\.\d{9} (AM|PM)`. -/
theorem getTime_matches_pattern (clk : Clock) (h : ∀ n, (clk n).valid) :
    (getTime clk).1.length = 21 ∧ matchesTimestamp (getTime clk).1.toList = true := by
  rw [getTime_valid clk h]
  constructor
  · by_cases h12 : 12 ≤ (clk 0).Hour <;>
      simp [h12, String.length, fixedDigits_length]
  · by_cases h12 : 12 ≤ (clk 0).Hour <;>
      simp [h12, fixedDigits, matchesTimestamp, digitsThen, charThen, isDayPart,
        digitChar_mod_isDigit]

/-- Witness of `getTime_matches_pattern`: the clock standing at 12:30:23.607883616. -/
theorem getTime_matches_pattern_witness :
    (getTime (Clock.const ⟨12, 30, 23, 607883616⟩)).1.length = 21 ∧
      matchesTimestamp (getTime (Clock.const ⟨12, 30, 23, 607883616⟩)).1.toList = true :=
  getTime_matches_pattern (Clock.const ⟨12, 30, 23, 607883616⟩)
    (fun _ => (by decide : (Time.mk 12 30 23 607883616).valid))

/-- C9 fails as stated: at midnight the hour field reads `00`, not the
12-hour wall-clock hour `12`. -/
theorem midnight_hour_field_is_00 :
    (getTime midnight).1.toList.take 2 = ['0', '0'] ∧
      fixedDigits 2 (clockHour12 (midnight 0).Hour) = ['1', '2'] ∧
      (getTime midnight).1.toList.take 2 ≠ fixedDigits 2 (clockHour12 (midnight 0).Hour) := by
  decide

/-- C9, amended: for every clock whose first reading has its 24-hour hour `h`
in 0..23, the hour field of the timestamp is the two-digit, zero-padded value
`h mod 12`, a value in 00..11 that reads 00 at midnight and at noon and agrees
with the 12-hour wall-clock hour at every other hour, and the timestamp ends
in ` AM` when `h < 12` and in ` PM` when `h >= 12`. -/
theorem getTime_hour_field (clk : Clock) (hh : (clk 0).Hour < 24) :
    (getTime clk).1.toList.take 2 = fixedDigits 2 ((clk 0).Hour % 12) ∧
    (clk 0).Hour % 12 < 12 ∧
    ((clk 0).Hour = 0 ∨ (clk 0).Hour = 12 → (getTime clk).1.toList.take 2 = ['0', '0']) ∧
    ((clk 0).Hour ≠ 0 ∧ (clk 0).Hour ≠ 12 → (clk 0).Hour % 12 = clockHour12 (clk 0).Hour) ∧
    ((clk 0).Hour < 12 → " AM".toList <:+ (getTime clk).1.toList) ∧
    (12 ≤ (clk 0).Hour → " PM".toList <:+ (getTime clk).1.toList) := by
  have hfield : (getTime clk).1.toList.take 2 = fixedDigits 2 ((clk 0).Hour % 12) := by
    rw [getTime_fst, hour12_eq_mod _ hh,
      zeroPad_eq 2 ((clk 0).Hour % 12) (by decide) (by norm_num; omega)]
    simp [fixedDigits]
  refine ⟨hfield, Nat.mod_lt _ (by decide), ?_, ?_, ?_, ?_⟩
  · intro h0
    rw [hfield]
    rcases h0 with h0 | h0 <;> rw [h0] <;> decide
  · intro h0
    unfold clockHour12
    omega
  · intro hlt
    have hn : ¬ 12 ≤ (clk 0).Hour := by omega
    rw [getTime_fst]
    simp only [hn, if_false]
    refine ⟨zeroPad 2 (clk 0).Hour ++ ':' :: zeroPad 2 (clk 1).Minute ++ ':' ::
      zeroPad 2 (clk 2).Second ++ '.' :: zeroPad 9 (clk 0).Nanosecond, ?_⟩
    simp
  · intro hge
    rw [getTime_fst]
    simp only [hge, if_true]
    refine ⟨zeroPad 2 ((clk 0).Hour - 12) ++ ':' :: zeroPad 2 (clk 1).Minute ++ ':' ::
      zeroPad 2 (clk 2).Second ++ '.' :: zeroPad 9 (clk 0).Nanosecond, ?_⟩
    simp

/-- Witness of `getTime_hour_field`: the clock standing at noon. -/
theorem getTime_hour_field_witness :
    (getTime (Clock.const ⟨12, 0, 0, 0⟩)).1.toList.take 2 = fixedDigits 2 (12 % 12) ∧
    12 % 12 < 12 ∧
    ((12 : Nat) = 0 ∨ (12 : Nat) = 12 →
      (getTime (Clock.const ⟨12, 0, 0, 0⟩)).1.toList.take 2 = ['0', '0']) ∧
    ((12 : Nat) ≠ 0 ∧ (12 : Nat) ≠ 12 → 12 % 12 = clockHour12 12) ∧
    ((12 : Nat) < 12 → " AM".toList <:+ (getTime (Clock.const ⟨12, 0, 0, 0⟩)).1.toList) ∧
    (12 ≤ (12 : Nat) → " PM".toList <:+ (getTime (Clock.const ⟨12, 0, 0, 0⟩)).1.toList) :=
  getTime_hour_field (Clock.const ⟨12, 0, 0, 0⟩) (by decide)

/-- C10 fails on the code: on a clock that passes 11:00 between the
first and the second reading, `getTime` takes the hour and the nanosecond from
the first reading and the minute and the second from later ones; the result
`10:00:00.999999999 AM` is the timestamp of none of the readings, and it
differs from the result on a clock with the same first reading that stands
still. -/
theorem getTime_mixes_readings :
    (getTime passingEleven).1 = "10:00:00.999999999 AM" ∧
    passingEleven 0 = beforeEleven ∧ passingEleven 1 = afterEleven ∧
    passingEleven 2 = afterEleven ∧
    timestampOf beforeEleven = "10:59:59.999999999 AM" ∧
    timestampOf afterEleven = "11:00:00.000000005 AM" ∧
    (getTime passingEleven).1 ≠ timestampOf (passingEleven 0) ∧
    (getTime passingEleven).1 ≠ timestampOf (passingEleven 1) ∧
    (getTime passingEleven).1 ≠ timestampOf (passingEleven 2) ∧
    (Clock.const beforeEleven) 0 = passingEleven 0 ∧
    (getTime (Clock.const beforeEleven)).1 ≠ (getTime passingEleven).1 := by
  decide

/-! ## The methods -/

theorem Write_received (w : Sink) (p : String) : (w.Write p).1.received = w.received ++ [p] := by
  unfold Sink.Write
  split <;> rfl

theorem emit_received (l : Log) (out : String × Clock) :
    (l.emit out).1.w.received = l.w.received ++ [out.1] :=
  Write_received l.w _

theorem emit_content (l : Log) (out : String × Clock) (hw : l.w.limit l.w.calls = none) :
    (l.emit out).1.w.content = l.w.content ++ out.1 := by
  simp only [Log.emit, Fprint, Sprint, Sink.Write, hw]

/-- C7: `Fatal` and `Fatalf` make one `Write` call on the sink, whose argument
is the record `doLog` builds at the fatal level, the bold red `FATL` record (on
a sink that accepts the write the content becomes the old content followed by
that record), and the process then exits with status 1 instead of handing
control back; the other eight methods hand control back with no exit status. -/
theorem fatal_writes_then_exits (l : Log) (arg : GoAny) (format M : String)
    (args : List GoAny) (clk : Clock) :
    l.Fatal arg clk =
      .exited 1 ⟨(Fprint l.w (.str (doLog lvlFatal arg clk).1)).1⟩ (doLog lvlFatal arg clk).2 ∧
    l.Fatalf format args clk =
      .exited 1 ⟨(Fprint l.w (.str (logf lvlFatal format args clk).1)).1⟩
        (logf lvlFatal format args clk).2 ∧
    (doLog lvlFatal (.str M) clk).1 =
      boldRed ++ "FATL" ++ reset ++ "[" ++ (getTime clk).1 ++ "] " ++ M ++ "\n" ∧
    (logf lvlFatal format args clk).1 =
      boldRed ++ "FATL" ++ reset ++ "[" ++ (getTime clk).1 ++ "] " ++ Sprintf format args
        ++ "\n" ∧
    (l.Fatal arg clk).log = (l.emit (doLog lvlFatal arg clk)).1 ∧
    (l.Error arg clk).log = (l.emit (doLog lvlError arg clk)).1 ∧
    (l.Fatal arg clk).status = some 1 ∧ (l.Fatalf format args clk).status = some 1 ∧
    (l.Debug arg clk).status = none ∧ (l.Debugf format args clk).status = none ∧
    (l.Info arg clk).status = none ∧ (l.Infof format args clk).status = none ∧
    (l.Warn arg clk).status = none ∧ (l.Warnf format args clk).status = none ∧
    (l.Error arg clk).status = none ∧ (l.Errorf format args clk).status = none ∧
    (l.Fatal arg clk).log.w.received = l.w.received ++ [(doLog lvlFatal arg clk).1] ∧
    (l.Error arg clk).log.w.received = l.w.received ++ [(doLog lvlError arg clk).1] ∧
    (l.Fatal (.str M) clk).log.w.received =
      l.w.received ++
        [boldRed ++ "FATL" ++ reset ++ "[" ++ (getTime clk).1 ++ "] " ++ M ++ "\n"] ∧
    (l.Fatalf format args clk).log.w.received =
      l.w.received ++
        [boldRed ++ "FATL" ++ reset ++ "[" ++ (getTime clk).1 ++ "] " ++ Sprintf format args
          ++ "\n"] ∧
    (l.w.limit l.w.calls = none →
      (l.Fatal (.str M) clk).log.w.content =
        l.w.content ++
          (boldRed ++ "FATL" ++ reset ++ "[" ++ (getTime clk).1 ++ "] " ++ M ++ "\n")) ∧
    (l.w.limit l.w.calls = none →
      (l.Fatalf format args clk).log.w.content =
        l.w.content ++
          (boldRed ++ "FATL" ++ reset ++ "[" ++ (getTime clk).1 ++ "] " ++ Sprintf format args
            ++ "\n")) ∧
    ((New (Sink.buffer "")).Fatal (.str "Hello") midnight).log.w.content =
      "\x1b[1;31mFATL\x1b[0m[00:00:00.000000000 AM] Hello\n" ∧
    ((New (Sink.buffer "")).Fatal (.str "Hello") midnight).status = some 1 := by
  have hrec : ∀ N : String, (doLog lvlFatal (.str N) clk).1 =
      boldRed ++ "FATL" ++ reset ++ "[" ++ (getTime clk).1 ++ "] " ++ N ++ "\n" := by
    intro N
    have h1 : lvlFatal.color = boldRed := by decide
    have h2 : lvlFatal.String = "FATL" := by decide
    simp only [doLog, Sprint, String.append_assoc, h1, h2, logLvl.reset]
  have hrecf : (logf lvlFatal format args clk).1 =
      boldRed ++ "FATL" ++ reset ++ "[" ++ (getTime clk).1 ++ "] " ++ Sprintf format args
        ++ "\n" := hrec _
  have hF : (l.Fatal (.str M) clk).log = (l.emit (doLog lvlFatal (.str M) clk)).1 := rfl
  have hFf : (l.Fatalf format args clk).log = (l.emit (logf lvlFatal format args clk)).1 := rfl
  refine ⟨rfl, rfl, hrec M, hrecf, rfl, rfl, rfl, rfl, rfl, rfl, rfl, rfl, rfl, rfl, rfl, rfl,
    emit_received l _, emit_received l _, ?_, ?_, ?_, ?_, ?_, rfl⟩
  · rw [hF, emit_received, hrec]
  · rw [hFf, emit_received, hrecf]
  · intro hw
    rw [hF, emit_content l _ hw, hrec]
  · intro hw
    rw [hFf, emit_content l _ hw, hrecf]
  · decide

/-- C8: whatever the sink does with the write, every method makes exactly one
`Write` call, with the record as its argument, and ends as it does on a healthy
sink: the eight non-fatal methods hand control back and the two fatal ones exit
with status 1. No outcome carries an error; on the sink that rejects every
write the error `Write` reports is dropped. -/
theorem write_errors_dropped (l : Log) (arg : GoAny) (format : String) (args : List GoAny)
    (clk : Clock) :
    ((l.Debug arg clk).log.w.received = l.w.received ++ [(doLog lvlDebug arg clk).1] ∧
      (l.Debug arg clk).status = none) ∧
    ((l.Debugf format args clk).log.w.received =
        l.w.received ++ [(logf lvlDebug format args clk).1] ∧
      (l.Debugf format args clk).status = none) ∧
    ((l.Info arg clk).log.w.received = l.w.received ++ [(doLog lvlInfo arg clk).1] ∧
      (l.Info arg clk).status = none) ∧
    ((l.Infof format args clk).log.w.received =
        l.w.received ++ [(logf lvlInfo format args clk).1] ∧
      (l.Infof format args clk).status = none) ∧
    ((l.Warn arg clk).log.w.received = l.w.received ++ [(doLog lvlWarn arg clk).1] ∧
      (l.Warn arg clk).status = none) ∧
    ((l.Warnf format args clk).log.w.received =
        l.w.received ++ [(logf lvlWarn format args clk).1] ∧
      (l.Warnf format args clk).status = none) ∧
    ((l.Error arg clk).log.w.received = l.w.received ++ [(doLog lvlError arg clk).1] ∧
      (l.Error arg clk).status = none) ∧
    ((l.Errorf format args clk).log.w.received =
        l.w.received ++ [(logf lvlError format args clk).1] ∧
      (l.Errorf format args clk).status = none) ∧
    ((l.Fatal arg clk).log.w.received = l.w.received ++ [(doLog lvlFatal arg clk).1] ∧
      (l.Fatal arg clk).status = some 1) ∧
    ((l.Fatalf format args clk).log.w.received =
        l.w.received ++ [(logf lvlFatal format args clk).1] ∧
      (l.Fatalf format args clk).status = some 1) ∧
    ((Fprint Sink.broken (.str (doLog lvlInfo arg clk).1)).2.2 = some "write error" ∧
      ((New Sink.broken).Info arg clk).status = none ∧
      ((New Sink.broken).Info arg clk).log.w.content = "" ∧
      ((New Sink.broken).Info arg clk).log.w.calls = 1 ∧
      ((New Sink.broken).Fatal arg clk).status = some 1) := by
  refine ⟨⟨emit_received l _, rfl⟩, ⟨emit_received l _, rfl⟩, ⟨emit_received l _, rfl⟩,
    ⟨emit_received l _, rfl⟩, ⟨emit_received l _, rfl⟩, ⟨emit_received l _, rfl⟩,
    ⟨emit_received l _, rfl⟩, ⟨emit_received l _, rfl⟩, ⟨emit_received l _, rfl⟩,
    ⟨emit_received l _, rfl⟩, rfl, rfl, ?_, rfl, rfl⟩
  show (New Sink.broken).w.content ++ String.mk ((doLog lvlInfo arg clk).1.toList.take 0) = ""
  simp [New, Sink.broken]

/-! ## Deleting the parts of a record -/

theorem removeFirst_append_self (p X : List Char) : removeFirst p (p ++ X) = X := by
  cases h : p ++ X with
  | nil =>
    simp only [List.append_eq_nil] at h
    rw [h.2]
    rfl
  | cons c cs =>
    have hp : p.isPrefixOf (c :: cs) = true := by
      rw [← h]
      exact List.isPrefixOf_iff_prefix.mpr (List.prefix_append p X)
    simp only [removeFirst, hp, if_true]
    rw [← h, List.drop_left]

theorem removeFirst_skip_head (c0 : Char) (p a Y : List Char) (ha : ∀ c ∈ a, c ≠ c0) :
    removeFirst (c0 :: p) (a ++ ((c0 :: p) ++ Y)) = a ++ Y := by
  induction a with
  | nil => exact removeFirst_append_self (c0 :: p) Y
  | cons c cs ih =>
    have hc : c ≠ c0 := ha c (List.mem_cons_self _ _)
    have hno : (c0 :: p).isPrefixOf (c :: (cs ++ ((c0 :: p) ++ Y))) = false := by
      rw [Bool.eq_false_iff]
      intro hpre
      have := List.isPrefixOf_iff_prefix.mp hpre
      rw [List.cons_prefix_cons] at this
      exact hc this.1.symm
    rw [List.cons_append, removeFirst, hno, if_neg Bool.false_ne_true]
    refine congrArg (c :: ·) ?_
    exact ih (fun c hcm => ha c (List.mem_cons_of_mem _ hcm))

theorem removeFirst_stamp (d0 d1 c2 : Char) (tl : List Char) (h0 : stampChar d0 = true)
    (h1 : stampChar d1 = true) (h2 : stampChar c2 = true) (a Y : List Char)
    (ha : noStampStart a = true) :
    removeFirst (d0 :: d1 :: c2 :: tl) (a ++ ((d0 :: d1 :: c2 :: tl) ++ Y)) = a ++ Y := by
  induction a with
  | nil => exact removeFirst_append_self _ Y
  | cons c cs ih =>
    simp only [noStampStart, Bool.and_eq_true] at ha
    have hno : (d0 :: d1 :: c2 :: tl).isPrefixOf (c :: (cs ++ ((d0 :: d1 :: c2 :: tl) ++ Y)))
        = false := by
      rw [Bool.eq_false_iff]
      intro hpre
      have hp := List.isPrefixOf_iff_prefix.mp hpre
      rw [List.cons_prefix_cons] at hp
      obtain ⟨e0, hp⟩ := hp
      have hb := ha.1
      rcases cs with _ | ⟨x, cs⟩
      · simp [breaksStamp, ← e0, h0] at hb
      · rw [List.cons_append, List.cons_prefix_cons] at hp
        obtain ⟨e1, hp⟩ := hp
        rcases cs with _ | ⟨y, cs⟩
        · simp [breaksStamp, ← e0, ← e1, h0, h1] at hb
        · rw [List.cons_append, List.cons_prefix_cons] at hp
          simp [breaksStamp, ← e0, ← e1, ← hp.1, h0, h1, h2] at hb
    rw [List.cons_append, removeFirst, hno, if_neg Bool.false_ne_true]
    refine congrArg (c :: ·) ?_
    exact ih ha.2

theorem stamp_head (l tl : List Char) (hall : ∀ c ∈ l, c.isDigit = true) (hlen : 2 ≤ l.length) :
    ∃ d0 d1 c2 tl1, l ++ ':' :: tl = d0 :: d1 :: c2 :: tl1 ∧ stampChar d0 = true ∧
      stampChar d1 = true ∧ stampChar c2 = true := by
  rcases l with _ | ⟨d0, _ | ⟨d1, l⟩⟩
  · simp at hlen
  · simp at hlen
  · have hd0 : stampChar d0 = true := by simp [stampChar, hall d0 (by simp)]
    have hd1 : stampChar d1 = true := by simp [stampChar, hall d1 (by simp)]
    rcases l with _ | ⟨c2, l⟩
    · exact ⟨d0, d1, ':', tl, rfl, hd0, hd1, by decide⟩
    · exact ⟨d0, d1, c2, l ++ ':' :: tl, rfl, hd0, hd1, by simp [stampChar, hall c2 (by simp)]⟩

theorem getTime_head (clk : Clock) :
    ∃ d0 d1 c2 tl, (getTime clk).1.toList = d0 :: d1 :: c2 :: tl ∧ stampChar d0 = true ∧
      stampChar d1 = true ∧ stampChar c2 = true := by
  rw [getTime_fst]
  simp only [String.toList, List.append_assoc, List.cons_append]
  exact stamp_head _ _ (zeroPad_all_isDigit 2 _) (zeroPad_length_ge 2 _)

theorem removeFirst_timestamp (clk : Clock) (a Y : List Char) (ha : noStampStart a = true) :
    removeFirst (getTime clk).1.toList (a ++ ((getTime clk).1.toList ++ Y)) = a ++ Y := by
  obtain ⟨d0, d1, c2, tl, hT, h0, h1, h2⟩ := getTime_head clk
  rw [hT]
  exact removeFirst_stamp d0 d1 c2 tl h0 h1 h2 a Y ha

theorem doLog_str_fst (lvl : logLvl) (M : String) (clk : Clock) :
    (doLog lvl (.str M) clk).1 =
      lvl.color ++ lvl.String ++ lvl.reset ++ "[" ++ (getTime clk).1 ++ "] " ++ M ++ "\n" := by
  simp only [doLog, Sprint, String.append_assoc]

theorem record_without_timestamp (lvl : logLvl) (s : String) (clk : Clock)
    (hpre : noStampStart (lvl.color ++ lvl.String ++ lvl.reset ++ "[").toList = true) :
    removeFirst (getTime clk).1.toList
        (lvl.color ++ lvl.String ++ lvl.reset ++ "[" ++ (getTime clk).1 ++ "] " ++ s ++ "\n").toList
      = (lvl.color ++ lvl.String ++ lvl.reset ++ "[] " ++ s ++ "\n").toList := by
  have e1 : (lvl.color ++ lvl.String ++ lvl.reset ++ "[" ++ (getTime clk).1 ++ "] " ++ s
        ++ "\n").toList =
      (lvl.color ++ lvl.String ++ lvl.reset ++ "[").toList ++
        ((getTime clk).1.toList ++ ("] " ++ s ++ "\n").toList) := by
    simp only [String.toList, String.data_append, List.append_assoc]
  have e2 : (lvl.color ++ lvl.String ++ lvl.reset ++ "[] " ++ s ++ "\n").toList =
      (lvl.color ++ lvl.String ++ lvl.reset ++ "[").toList ++ ("] " ++ s ++ "\n").toList := by
    simp only [String.toList, String.data_append, List.append_assoc]
    rfl
  rw [e1, e2]
  exact removeFirst_timestamp clk _ _ hpre

theorem tag_chars (lvl : logLvl) : ∀ c ∈ lvl.String.toList, c ≠ '\x1b' ∧ c ≠ '[' := by
  unfold logLvl.String
  split_ifs <;> decide

/-- C2 fails as stated: on a sink that rejects the write, `Debug("Hello")` makes
its one `Write` call with the record, but the content stays empty instead of
becoming the old content followed by the record; on a sink that accepts seven
characters only the first seven characters of the record are appended. -/
theorem failing_sink_content_not_appended :
    ((New Sink.broken).Debug (.str "Hello") midnight).log.w.received =
      ["\x1b[36mDBUG\x1b[0m[00:00:00.000000000 AM] Hello\n"] ∧
    ((New Sink.broken).Debug (.str "Hello") midnight).log.w.content = "" ∧
    ((New Sink.broken).Debug (.str "Hello") midnight).log.w.content ≠
      Sink.broken.content ++ (lvlDebug.color ++ lvlDebug.String ++ lvlDebug.reset ++ "["
        ++ (getTime midnight).1 ++ "] " ++ "Hello" ++ "\n") ∧
    ((New ⟨"old", [], fun _ => some 7⟩).Debug (.str "Hello") midnight).log.w.content =
      "old\x1b[36mDB" := by
  decide

/-- C2, amended: each of `Debug`, `Info`, `Warn` and `Error` called with the string `s`
on a logger built by `New` makes one `Write` call, whose argument is the
record: colour, tag, reset, `[`, the timestamp, `] `, `s` and a newline; it
hands control back; when the sink accepts the write, its content is the old
content followed by that record; and deleting the timestamp from the record
leaves colour, tag, reset, `[] `, `s` and a newline. -/
theorem level_method_appends_record (lvl : logLvl) (m : Log → GoAny → Clock → Outcome)
    (hm : (lvl, m) ∈ plainMethods) (w : Sink) (s : String) (clk : Clock) :
    (m (New w) (.str s) clk).log.w.received =
      w.received ++ [lvl.color ++ lvl.String ++ lvl.reset ++ "[" ++ (getTime clk).1 ++ "] "
        ++ s ++ "\n"] ∧
    (m (New w) (.str s) clk).status = none ∧
    (w.limit w.calls = none →
      (m (New w) (.str s) clk).log.w.content =
        w.content ++ (lvl.color ++ lvl.String ++ lvl.reset ++ "[" ++ (getTime clk).1 ++ "] "
          ++ s ++ "\n")) ∧
    removeFirst (getTime clk).1.toList
        (lvl.color ++ lvl.String ++ lvl.reset ++ "[" ++ (getTime clk).1 ++ "] " ++ s ++ "\n").toList
      = (lvl.color ++ lvl.String ++ lvl.reset ++ "[] " ++ s ++ "\n").toList := by
  have hrecv : ∀ lv : logLvl, ((New w).emit (doLog lv (.str s) clk)).1.w.received =
      w.received ++ [lv.color ++ lv.String ++ lv.reset ++ "[" ++ (getTime clk).1 ++ "] "
        ++ s ++ "\n"] := by
    intro lv
    rw [emit_received, doLog_str_fst]
    rfl
  have hcont : ∀ lv : logLvl, w.limit w.calls = none →
      ((New w).emit (doLog lv (.str s) clk)).1.w.content =
        w.content ++ (lv.color ++ lv.String ++ lv.reset ++ "[" ++ (getTime clk).1 ++ "] "
          ++ s ++ "\n") := by
    intro lv hw
    simp only [Log.emit, Fprint, Sprint, Sink.Write, New, hw, doLog_str_fst]
  simp only [plainMethods, List.mem_cons, Prod.mk.injEq, List.mem_singleton, List.not_mem_nil,
    or_false] at hm
  rcases hm with ⟨rfl, rfl⟩ | ⟨rfl, rfl⟩ | ⟨rfl, rfl⟩ | ⟨rfl, rfl⟩
  · exact ⟨hrecv _, rfl, hcont _, record_without_timestamp _ s clk (by decide)⟩
  · exact ⟨hrecv _, rfl, hcont _, record_without_timestamp _ s clk (by decide)⟩
  · exact ⟨hrecv _, rfl, hcont _, record_without_timestamp _ s clk (by decide)⟩
  · exact ⟨hrecv _, rfl, hcont _, record_without_timestamp _ s clk (by decide)⟩

/-- Witness of `level_method_appends_record`: `Debug("Hello")` on an empty
buffer, with the clock standing at 12:30:23.607883616. -/
theorem level_method_appends_record_witness :
    (lvlDebug, Log.Debug) ∈ plainMethods ∧
    (Log.Debug (New (Sink.buffer "")) (.str "Hello")
        (Clock.const ⟨12, 30, 23, 607883616⟩)).log.w.received =
      [] ++ ["\x1b[36m" ++ "DBUG" ++ "\x1b[0m" ++ "[" ++ "00:30:23.607883616 PM" ++ "] "
        ++ "Hello" ++ "\n"] ∧
    (Log.Debug (New (Sink.buffer "")) (.str "Hello")
        (Clock.const ⟨12, 30, 23, 607883616⟩)).status = none ∧
    (Log.Debug (New (Sink.buffer "")) (.str "Hello")
        (Clock.const ⟨12, 30, 23, 607883616⟩)).log.w.content =
      "" ++ ("\x1b[36m" ++ "DBUG" ++ "\x1b[0m" ++ "[" ++ "00:30:23.607883616 PM" ++ "] "
        ++ "Hello" ++ "\n") ∧
    removeFirst "00:30:23.607883616 PM".toList
        ("\x1b[36m" ++ "DBUG" ++ "\x1b[0m" ++ "[" ++ "00:30:23.607883616 PM" ++ "] "
          ++ "Hello" ++ "\n").toList
      = ("\x1b[36m" ++ "DBUG" ++ "\x1b[0m" ++ "[] " ++ "Hello" ++ "\n").toList :=
  have h := level_method_appends_record lvlDebug Log.Debug (by simp [plainMethods])
    (Sink.buffer "") "Hello" (Clock.const ⟨12, 30, 23, 607883616⟩)
  ⟨by simp [plainMethods], h.1, h.2.1, h.2.2.1 rfl, h.2.2.2⟩

/-- C3: every f-suffixed method behaves as the plain method of its level called
with the string `Sprintf` builds from the template and the operands: `logf` is
`doLog` on that string, and rendering the string as the message leaves it
unchanged. `Infof("Hello %d %d", 1, 2)` on an empty buffer writes, with the
timestamp deleted, green, `INFO`, reset and `[] Hello 1 2` with a newline. -/
theorem formatted_method_eq_plain (lvl : logLvl) (f : String) (args : List GoAny)
    (clk : Clock) (l : Log) :
    logf lvl f args clk = doLog lvl (.str (Sprintf f args)) clk ∧
    Sprint (.str (Sprintf f args)) = Sprintf f args ∧
    l.Debugf f args clk = l.Debug (.str (Sprintf f args)) clk ∧
    l.Infof f args clk = l.Info (.str (Sprintf f args)) clk ∧
    l.Warnf f args clk = l.Warn (.str (Sprintf f args)) clk ∧
    l.Errorf f args clk = l.Error (.str (Sprintf f args)) clk ∧
    l.Fatalf f args clk = l.Fatal (.str (Sprintf f args)) clk ∧
    Sprintf "Hello %d %d" [.int 1, .int 2] = "Hello 1 2" ∧
    ((New (Sink.buffer "")).Infof "Hello %d %d" [.int 1, .int 2] clk).log.w.content =
      green ++ "INFO" ++ reset ++ "[" ++ (getTime clk).1 ++ "] " ++ "Hello 1 2" ++ "\n" ∧
    removeFirst (getTime clk).1.toList
        ((New (Sink.buffer "")).Infof "Hello %d %d" [.int 1, .int 2] clk).log.w.content.toList
      = (green ++ "INFO" ++ reset ++ "[] " ++ "Hello 1 2" ++ "\n").toList := by
  have hfmt : Sprintf "Hello %d %d" [.int 1, .int 2] = "Hello 1 2" := by decide
  have hcontent : ((New (Sink.buffer "")).Infof "Hello %d %d" [.int 1, .int 2] clk).log.w.content =
      green ++ "INFO" ++ reset ++ "[" ++ (getTime clk).1 ++ "] " ++ "Hello 1 2" ++ "\n" := by
    show "" ++ (doLog lvlInfo (.str (Sprintf "Hello %d %d" [.int 1, .int 2])) clk).1 = _
    rw [hfmt, doLog_str_fst]
    apply String.ext
    rfl
  refine ⟨rfl, rfl, rfl, rfl, rfl, rfl, rfl, hfmt, hcontent, ?_⟩
  rw [hcontent]
  exact record_without_timestamp lvlInfo "Hello 1 2" clk (by decide)

/-- C6 fails as stated: stripping the colour code, the reset code and the
bracketed timestamp from the record of `Debug("Hello")` leaves the tag and a
blank in front of the message. -/
theorem strip_keeps_tag_example :
    stripRecord lvlDebug.color lvlDebug.reset (getTime midnight).1
        (doLog lvlDebug (.str "Hello") midnight).1 = "DBUG Hello\n" ∧
      stripRecord lvlDebug.color lvlDebug.reset (getTime midnight).1
        (doLog lvlDebug (.str "Hello") midnight).1 ≠ "Hello" ++ "\n" := by
  decide

/-- C6, amended: for every level (the five severities among them), every
message `M` and every clock, stripping the colour escape code, the reset escape
code and the bracketed timestamp from the record leaves exactly the tag of the
level, one blank, `M` and a newline. -/
theorem strip_leaves_tag_and_message (lvl : logLvl) (M : String) (clk : Clock) :
    stripRecord lvl.color lvl.reset (getTime clk).1 (doLog lvl (.str M) clk).1 =
      lvl.String ++ " " ++ M ++ "\n" := by
  have hrec : (doLog lvl (.str M) clk).1.toList =
      lvl.color.toList ++ (lvl.String.toList ++ (('\x1b' :: ['[', '0', 'm']) ++
        (lvl.String.toList.drop lvl.String.toList.length ++
          (('[' :: ((getTime clk).1.toList ++ [']'])) ++ (" " ++ M ++ "\n").toList)))) := by
    rw [doLog_str_fst]
    have e1 : lvl.reset.data = '\x1b' :: ['[', '0', 'm'] := rfl
    have e2 : "[".data = ['['] := rfl
    have e3 : "] ".data = [']'] ++ " ".data := rfl
    simp only [String.toList, String.data_append, List.append_assoc, e1, e2, e3, List.drop_length,
      List.nil_append, List.cons_append, List.singleton_append]
  have hreset : lvl.reset.toList = '\x1b' :: ['[', '0', 'm'] := rfl
  unfold stripRecord
  apply String.ext
  show removeFirst _ (removeFirst _ (removeFirst _ (doLog lvl (.str M) clk).1.toList)) = _
  rw [hrec, removeFirst_append_self, hreset,
    removeFirst_skip_head '\x1b' _ _ _ (fun c hc => (tag_chars lvl c hc).1),
    List.drop_length, List.nil_append, List.cons_append,
    removeFirst_skip_head '[' _ _ _ (fun c hc => (tag_chars lvl c hc).2)]
  simp only [String.toList, String.data_append, List.append_assoc]

end GoLog
